import Mathlib

/-!
Shallow embedding of `src/hyperparameter_search_BCE.py`.

The script performs an exhaustive hyperparameter sweep (`run_hyper`):
it prepares data once, enumerates the Cartesian product of six fixed
hyperparameter axes with `itertools.product`, filters out combinations
already present in a persisted CSV results file, and for each remaining
combination trains a model, evaluates its AUC, and rewrites the full
results file.  External collaborators (preprocessing, training,
evaluation) are parameters of the embedding; the sweep additionally
produces an event trace recording every collaborator call and every
durable write, so that the claims about call patterns can be stated.
-/

namespace HyperSearch

/-- A scalar value stored in one cell of the CSV-backed results table:
the hyperparameter columns hold ints, bools and floats (floats are
modelled exactly as rationals), and the metric column holds a float. -/
inductive Cell where
  | nat : Nat → Cell
  | bool : Bool → Cell
  | rat : ℚ → Cell
deriving DecidableEq, Repr, Inhabited

/-- A pandas-style data frame: a list of named columns and rows of cells,
each row positional under the column list.  This models both the parsed
content of the results CSV (line 57) and the frames built in memory. -/
structure DataFrame where
  columns : List String
  rows : List (List Cell)
deriving DecidableEq, Repr

/-- One assignment of values to the six hyperparameter axes, in the fixed
axis order of the script (line 76). -/
structure Combination where
  num_layers : Nat
  bidirectional : Bool
  lstm_size : Nat
  batch_size : Nat
  learning_rate : ℚ
  dropout : ℚ
deriving DecidableEq, Repr

/-- Hyperparameter grid, line 41. -/
def num_layers_lst : List Nat := [1, 2]

/-- Hyperparameter grid, line 42. -/
def bidirectional_lst : List Bool := [false, true]

/-- Hyperparameter grid, line 43. -/
def LSTM_size_lst : List Nat := [16, 32, 64]

/-- Hyperparameter grid, line 44. -/
def batch_size_lst : List Nat := [128, 256, 512]

/-- Hyperparameter grid, line 45: the floats 0.0001 and 0.001, modelled
as exact rationals. -/
def learning_rate_lst : List ℚ := [mkRat 1 10000, mkRat 1 1000]

/-- Hyperparameter grid, line 46: the floats 0.2 and 0.4, modelled as
exact rationals. -/
def dropout_lst : List ℚ := [mkRat 2 10, mkRat 4 10]

/-- Lines 50–51: `list(product(...))` — nested iteration over the six
axes with the last axis (dropout) varying fastest, exactly the order of
`itertools.product`. -/
def hyperparameter_combinations : List Combination :=
  num_layers_lst.flatMap fun nl =>
    bidirectional_lst.flatMap fun bd =>
      LSTM_size_lst.flatMap fun ls =>
        batch_size_lst.flatMap fun bs =>
          learning_rate_lst.flatMap fun lr =>
            dropout_lst.map fun dp =>
              { num_layers := nl, bidirectional := bd, lstm_size := ls,
                batch_size := bs, learning_rate := lr, dropout := dp }

/-- The six columns selected at lines 60–61 to build the completed set. -/
def requiredColumns : List String :=
  ["num_layers", "bidirectional", "lstm_size", "batch_size",
   "learning_rate", "dropout"]

/-- The seven columns of the results file (line 65 and the dict keys of
lines 111–119). -/
def standardColumns : List String := requiredColumns ++ ["auc_score"]

/-- The raw six-value tuple of a combination, as compared against the
tuples read back from the results file (line 73's `comb not in ...`). -/
def Combination.toCells (c : Combination) : List Cell :=
  [.nat c.num_layers, .bool c.bidirectional, .nat c.lstm_size,
   .nat c.batch_size, .rat c.learning_rate, .rat c.dropout]

/-- The row appended for one finished combination (lines 111–119): the
six hyperparameter values followed by the AUC score. -/
def recordRow (c : Combination) (auc : ℚ) : List Cell :=
  c.toCells ++ [.rat auc]

/-- Column selection `df[cols]` followed by `itertuples` (lines 60–61):
resolve each requested column name to its position, failing (pandas
`KeyError`, the ParseError of the spec) when a name is absent, then read
those positions out of every row. -/
def selectColumns (df : DataFrame) (cols : List String) :
    Option (List (List Cell)) :=
  (cols.mapM fun c => df.columns.findIdx? fun c2 => c2 == c).map fun idxs =>
    df.rows.map fun row => idxs.map fun i => row.getD i default

/-- Lines 55–67: if the results file exists parse it and extract the
completed six-value tuples, otherwise start from an empty frame with the
standard columns and an empty completed set.  `none` is the ParseError
case (file present but required columns missing). -/
def loadResults (fs : Option DataFrame) :
    Option (DataFrame × List (List Cell)) :=
  match fs with
  | some existing_results_df =>
      (selectColumns existing_results_df requiredColumns).map
        fun completed_combinations =>
          (existing_results_df, completed_combinations)
  | none => some (⟨standardColumns, []⟩, [])

/-- Lines 122–123 and 127: `pd.concat([existing, new], ignore_index=True)`,
modelled for frames whose columns align positionally (the only shape the
sweep produces: the second frame is always the standard-column frame of
newly accumulated rows, or empty). -/
def pdConcat (a b : DataFrame) : DataFrame :=
  ⟨a.columns, a.rows ++ b.rows⟩

/-- The fields of `prepare.full_prep`'s return that the sweep uses
(line 36): the prepared tensors/vocabularies bundled as one opaque value,
and the resolved maximum prefix length. -/
structure PrepOutput (Data : Type) where
  data : Data
  new_max_prefix_len : Nat

/-- The argument record of `train_model.train_and_return_LSTM`
(lines 137–159), with the prepared tensors bundled as `train_data`. -/
structure TrainConfig (Data : Type) where
  train_data : Data
  loss_function : String
  dropout : ℚ
  lstm_size : Nat
  num_lstm : Nat
  bidirectional : Bool
  max_length : Nat
  learning_rate : ℚ
  max_epochs : Nat
  batch_size : Nat
  patience : Nat
  get_history : Bool
deriving DecidableEq, Repr

/-- Lines 133–160: `initialize_model` forwards its arguments to the
external `train_model.train_and_return_LSTM` with `loss_function='BCE'`
and `get_history=False`.  Since the external call is a collaborator
parameter of the sweep, `initialize_model` is modelled as building the
argument record of that call; the sweep applies the Training
Collaborator to it. -/
def initialize_model {Data : Type} (data : Data)
    (num_layers : Nat) (bidirectional : Bool) (lstm_size : Nat)
    (batch_size : Nat) (learning_rate : ℚ) (dropout : ℚ)
    (max_length : Nat) (max_epochs : Nat) (patience : Nat) :
    TrainConfig Data :=
  { train_data := data
    loss_function := "BCE"
    dropout := dropout
    lstm_size := lstm_size
    num_lstm := num_layers
    bidirectional := bidirectional
    max_length := max_length
    learning_rate := learning_rate
    max_epochs := max_epochs
    batch_size := batch_size
    patience := patience
    get_history := false }

/-- The six swept hyperparameters of a training call, read back out of
its argument record. -/
def TrainConfig.combination {Data : Type} (cfg : TrainConfig Data) :
    Combination :=
  { num_layers := cfg.num_lstm, bidirectional := cfg.bidirectional,
    lstm_size := cfg.lstm_size, batch_size := cfg.batch_size,
    learning_rate := cfg.learning_rate, dropout := cfg.dropout }

/-- An observable step of one sweep invocation: the single preprocessing
load, each training call (with the full argument record), each
evaluation call, and each durable write of the results file. -/
inductive Event (Data Model : Type) where
  | prep (dataset_name logname : String) (max_prefix_len : Nat)
  | train (cfg : TrainConfig Data)
  | evalCall (m : Model)
  | write (path : String) (df : DataFrame)

/-- Errors a sweep invocation can propagate: the load-time ParseError
(pandas `KeyError`/parse failure), or an uncaught collaborator error. -/
inductive SweepError (ε : Type) where
  | parseError
  | collab (e : ε)
deriving DecidableEq, Repr

/-- The outcome of one sweep invocation: the returned results frame or
the propagated error, the state of the results file when the invocation
ends, and the trace of observable steps. -/
structure RunResult (Data Model ε : Type) where
  outcome : Except (SweepError ε) DataFrame
  file : Option DataFrame
  trace : List (Event Data Model)

/-- The per-combination loop of `run_hyper` (lines 75–124) followed by
the final save (lines 127–128).  `new_results` is the accumulated list of
new rows, `file` the current state of the results file.  An uncaught
collaborator error aborts the recursion, leaving the file as it was after
the last completed flush. -/
def sweepLoop {Data Model ε : Type}
    (train_and_return_LSTM : TrainConfig Data → Except ε Model)
    (evaluate_model : Model → Except ε ℚ)
    (data : Data) (new_max_prefix_len : Nat) (results_path : String)
    (existing_results_df : DataFrame) :
    List Combination → List (List Cell) → Option DataFrame →
    RunResult Data Model ε
  | [], new_results, _ =>
      let results_df := pdConcat existing_results_df ⟨standardColumns, new_results⟩
      { outcome := .ok results_df
        file := some results_df
        trace := [.write results_path results_df] }
  | combination :: rest, new_results, file =>
      let cfg := initialize_model data combination.num_layers
        combination.bidirectional combination.lstm_size
        combination.batch_size combination.learning_rate
        combination.dropout new_max_prefix_len 300 20
      match train_and_return_LSTM cfg with
      | .error e =>
          { outcome := .error (.collab e), file := file, trace := [.train cfg] }
      | .ok model =>
          match evaluate_model model with
          | .error e =>
              { outcome := .error (.collab e), file := file,
                trace := [.train cfg, .evalCall model] }
          | .ok auc =>
              let new_results := new_results ++ [recordRow combination auc]
              let results_df :=
                pdConcat existing_results_df ⟨standardColumns, new_results⟩
              let r := sweepLoop train_and_return_LSTM evaluate_model data
                new_max_prefix_len results_path existing_results_df rest
                new_results (some results_df)
              { r with
                trace := .train cfg :: .evalCall model ::
                  .write results_path results_df :: r.trace }

/-- Line 54: the conventional path of the results file. -/
def resultsPath (logname addendum : String) : String :=
  "Results/Hyperparameters/BCE/" ++ logname ++ "_" ++ addendum ++
    "_hyperparameter_tuning_results.csv"

/-- Lines 14–131: the sweep controller.  `full_prep` is the external
preprocessing collaborator, `train_and_return_LSTM` the training
collaborator, `evaluate_model` the evaluation collaborator; `fs` is the
content of the results file at `resultsPath logname addendum` when the
invocation starts (`none` when absent). -/
def run_hyper {Data Model ε : Type}
    (full_prep : String → String → Nat → PrepOutput Data)
    (train_and_return_LSTM : TrainConfig Data → Except ε Model)
    (evaluate_model : Model → Except ε ℚ)
    (dataset_name logname : String) (max_prefix_len : Nat)
    (addendum : String) (fs : Option DataFrame) : RunResult Data Model ε :=
  let prep := full_prep dataset_name logname max_prefix_len
  let results_path := resultsPath logname addendum
  match loadResults fs with
  | none =>
      { outcome := .error .parseError, file := fs,
        trace := [.prep dataset_name logname max_prefix_len] }
  | some (existing_results_df, completed_combinations) =>
      let combinations_to_run := hyperparameter_combinations.filter
        fun comb => !decide (comb.toCells ∈ completed_combinations)
      let r := sweepLoop train_and_return_LSTM evaluate_model prep.data
        prep.new_max_prefix_len results_path existing_results_df
        combinations_to_run [] fs
      { r with trace := .prep dataset_name logname max_prefix_len :: r.trace }

/-- The training-call argument records appearing in a trace, in order. -/
def trainCalls {Data Model : Type} (tr : List (Event Data Model)) :
    List (TrainConfig Data) :=
  tr.filterMap fun e => match e with | .train cfg => some cfg | _ => none

/-- The combinations the Training Collaborator was invoked on, in order. -/
def trainedCombinations {Data Model : Type} (tr : List (Event Data Model)) :
    List Combination :=
  (trainCalls tr).map TrainConfig.combination

/-- Number of Evaluation Collaborator calls in a trace. -/
def evalCount {Data Model : Type} (tr : List (Event Data Model)) : Nat :=
  tr.countP fun e => match e with | .evalCall _ => true | _ => false

/-- The frames durably written to the results file, in order. -/
def writeEvents {Data Model : Type} (tr : List (Event Data Model)) :
    List DataFrame :=
  tr.filterMap fun e => match e with | .write _ df => some df | _ => none

/-- Number of preprocessing loads in a trace. -/
def prepCount {Data Model : Type} (tr : List (Event Data Model)) : Nat :=
  tr.countP fun e => match e with | .prep _ _ _ => true | _ => false

/-- The rows a file state holds: an absent file holds no records. -/
def storeRows : Option DataFrame → List (List Cell)
  | none => []
  | some df => df.rows

/-- The position a combination takes in nested iteration over the six
axes with the last axis (dropout) varying fastest: the mixed-radix value
of its per-axis indices with strides 72, 36, 12, 4, 2, 1. -/
def axisRank (c : Combination) : Nat :=
  (num_layers_lst.findIdx fun x => x == c.num_layers) * 72 +
    (bidirectional_lst.findIdx fun x => x == c.bidirectional) * 36 +
    (LSTM_size_lst.findIdx fun x => x == c.lstm_size) * 12 +
    (batch_size_lst.findIdx fun x => x == c.batch_size) * 4 +
    (learning_rate_lst.findIdx fun x => x == c.learning_rate) * 2 +
    (dropout_lst.findIdx fun x => x == c.dropout)

/-- The enumerated sequence is ordered by `axisRank`: the combination at
position i has rank i, i.e. the order is exactly nested iteration with
the last axis varying fastest. -/
theorem hyperparameter_combinations_rank :
    hyperparameter_combinations.map axisRank = List.range 144 := by
  decide

/-- The enumeration contains no duplicate combination. -/
theorem hyperparameter_combinations_nodup :
    hyperparameter_combinations.Nodup := by
  have h : (hyperparameter_combinations.map axisRank).Nodup := by
    rw [hyperparameter_combinations_rank]
    exact List.nodup_range 144
  exact h.of_map

theorem hyperparameter_combinations_length :
    hyperparameter_combinations.length = 144 := by
  rw [← List.length_map hyperparameter_combinations axisRank,
    hyperparameter_combinations_rank, List.length_range]

/-- Membership in the enumerated sequence is exactly membership of every
component in its axis grid. -/
theorem mem_hyperparameter_combinations (c : Combination) :
    c ∈ hyperparameter_combinations ↔
      c.num_layers ∈ num_layers_lst ∧ c.bidirectional ∈ bidirectional_lst ∧
      c.lstm_size ∈ LSTM_size_lst ∧ c.batch_size ∈ batch_size_lst ∧
      c.learning_rate ∈ learning_rate_lst ∧ c.dropout ∈ dropout_lst := by
  constructor
  · intro h
    simp only [hyperparameter_combinations, List.mem_flatMap, List.mem_map] at h
    obtain ⟨nl, hnl, bd, hbd, ls, hls, bs, hbs, lr, hlr, dp, hdp, hc⟩ := h
    subst hc
    exact ⟨hnl, hbd, hls, hbs, hlr, hdp⟩
  · rintro ⟨h1, h2, h3, h4, h5, h6⟩
    simp only [hyperparameter_combinations, List.mem_flatMap, List.mem_map]
    exact ⟨_, h1, _, h2, _, h3, _, h4, _, h5, _, h6, rfl⟩

/-- Line 73: the pending list — the enumeration filtered by exact
membership of the raw six-value tuple in the completed set. -/
def pendingFor (completed : List (List Cell)) : List Combination :=
  hyperparameter_combinations.filter fun comb =>
    !decide (comb.toCells ∈ completed)

/-- The training-call argument record the loop builds for one
combination (lines 82–102): the combination's six values plus the fixed
configuration `max_epochs := 300`, `patience := 20` and the resolved
maximum prefix length. -/
def cfgFor {Data : Type} (data : Data) (maxLen : Nat) (c : Combination) :
    TrainConfig Data :=
  initialize_model data c.num_layers c.bidirectional c.lstm_size
    c.batch_size c.learning_rate c.dropout maxLen 300 20

theorem cfgFor_combination {Data : Type} (data : Data) (maxLen : Nat)
    (c : Combination) : (cfgFor data maxLen c).combination = c := rfl

/-- The metric one combination obtains when the collaborators are the
total functions `t` and `v`. -/
def aucFor {Data Model : Type} (t : TrainConfig Data → Model) (v : Model → ℚ)
    (data : Data) (maxLen : Nat) (c : Combination) : ℚ :=
  v (t (cfgFor data maxLen c))

/-- The results row one combination contributes under total collaborators. -/
def rowFor {Data Model : Type} (t : TrainConfig Data → Model) (v : Model → ℚ)
    (data : Data) (maxLen : Nat) (c : Combination) : List Cell :=
  recordRow c (aucFor t v data maxLen c)

/-- The new rows a list of pending combinations contributes, in order. -/
def newRowsFor {Data Model : Type} (t : TrainConfig Data → Model)
    (v : Model → ℚ) (data : Data) (maxLen : Nat)
    (pending : List Combination) : List (List Cell) :=
  pending.map (rowFor t v data maxLen)

/-- The event trace the loop emits under total collaborators, starting
from accumulated rows `acc`. -/
def totalTrace {Data Model : Type} (t : TrainConfig Data → Model)
    (v : Model → ℚ) (data : Data) (maxLen : Nat) (path : String)
    (existing : DataFrame) :
    List (List Cell) → List Combination → List (Event Data Model)
  | acc, [] => [.write path (pdConcat existing ⟨standardColumns, acc⟩)]
  | acc, c :: rest =>
      .train (cfgFor data maxLen c) ::
        .evalCall (t (cfgFor data maxLen c)) ::
          .write path
              (pdConcat existing
                ⟨standardColumns, acc ++ [rowFor t v data maxLen c]⟩) ::
            totalTrace t v data maxLen path existing
              (acc ++ [rowFor t v data maxLen c]) rest

/-- Full characterisation of the loop when no collaborator call fails. -/
theorem sweepLoop_total {Data Model ε : Type} (t : TrainConfig Data → Model)
    (v : Model → ℚ) (data : Data) (maxLen : Nat) (path : String)
    (existing : DataFrame) (pending : List Combination)
    (acc : List (List Cell)) (file : Option DataFrame) :
    sweepLoop (ε := ε) (fun cfg => .ok (t cfg)) (fun m => .ok (v m)) data
        maxLen path existing pending acc file =
      { outcome := .ok (pdConcat existing
          ⟨standardColumns, acc ++ newRowsFor t v data maxLen pending⟩)
        file := some (pdConcat existing
          ⟨standardColumns, acc ++ newRowsFor t v data maxLen pending⟩)
        trace := totalTrace t v data maxLen path existing acc pending } := by
  induction pending generalizing acc file with
  | nil => simp [sweepLoop, totalTrace, newRowsFor]
  | cons c rest ih =>
      simp only [sweepLoop, ih, totalTrace, newRowsFor, List.map_cons,
        cfgFor, rowFor, aucFor, List.append_assoc, List.cons_append,
        List.nil_append]

/-- The sweep on successfully loaded state, with no collaborator
failures: outcome, final file and trace in closed form. -/
theorem run_hyper_total {Data Model ε : Type}
    (fp : String → String → Nat → PrepOutput Data)
    (t : TrainConfig Data → Model) (v : Model → ℚ)
    (dn ln : String) (mpl : Nat) (ad : String)
    (fs : Option DataFrame) (existing : DataFrame)
    (completed : List (List Cell))
    (hload : loadResults fs = some (existing, completed)) :
    run_hyper (ε := ε) fp (fun cfg => .ok (t cfg)) (fun m => .ok (v m))
        dn ln mpl ad fs =
      { outcome := .ok (pdConcat existing ⟨standardColumns,
          newRowsFor t v (fp dn ln mpl).data (fp dn ln mpl).new_max_prefix_len
            (pendingFor completed)⟩)
        file := some (pdConcat existing ⟨standardColumns,
          newRowsFor t v (fp dn ln mpl).data (fp dn ln mpl).new_max_prefix_len
            (pendingFor completed)⟩)
        trace := .prep dn ln mpl ::
          totalTrace t v (fp dn ln mpl).data (fp dn ln mpl).new_max_prefix_len
            (resultsPath ln ad) existing [] (pendingFor completed) } := by
  simp [run_hyper, hload, sweepLoop_total, pendingFor]

theorem trainedCombinations_totalTrace {Data Model : Type}
    (t : TrainConfig Data → Model) (v : Model → ℚ) (data : Data)
    (maxLen : Nat) (path : String) (existing : DataFrame)
    (pending : List Combination) (acc : List (List Cell)) :
    trainedCombinations (totalTrace t v data maxLen path existing acc pending)
      = pending := by
  induction pending generalizing acc with
  | nil => simp [totalTrace, trainedCombinations, trainCalls]
  | cons c rest ih =>
      simp [totalTrace, trainedCombinations, trainCalls, List.filterMap_cons,
        cfgFor_combination, ih, trainedCombinations] at ih ⊢
      exact ih _

theorem evalCount_totalTrace {Data Model : Type}
    (t : TrainConfig Data → Model) (v : Model → ℚ) (data : Data)
    (maxLen : Nat) (path : String) (existing : DataFrame)
    (pending : List Combination) (acc : List (List Cell)) :
    evalCount (totalTrace t v data maxLen path existing acc pending)
      = pending.length := by
  induction pending generalizing acc with
  | nil => simp [totalTrace, evalCount]
  | cons c rest ih =>
      simp [totalTrace, evalCount, List.countP_cons] at ih ⊢
      exact ih _

theorem writeEvents_totalTrace {Data Model : Type}
    (t : TrainConfig Data → Model) (v : Model → ℚ) (data : Data)
    (maxLen : Nat) (path : String) (existing : DataFrame)
    (pending : List Combination) (acc : List (List Cell)) :
    writeEvents (totalTrace t v data maxLen path existing acc pending) =
      (List.range pending.length).map (fun i =>
        pdConcat existing ⟨standardColumns,
          acc ++ (newRowsFor t v data maxLen pending).take (i + 1)⟩) ++
        [pdConcat existing
          ⟨standardColumns, acc ++ newRowsFor t v data maxLen pending⟩] := by
  induction pending generalizing acc with
  | nil => simp [totalTrace, writeEvents, newRowsFor]
  | cons c rest ih =>
      have h := ih (acc ++ [rowFor t v data maxLen c])
      simp [totalTrace, writeEvents, List.filterMap_cons, newRowsFor,
        List.range_succ_eq_map, List.map_map, Function.comp_def,
        List.take_succ_cons, List.append_assoc] at h ⊢
      rw [h]

/-- Combinations are recoverable from their raw six-value tuples. -/
theorem toCells_injective : Function.Injective Combination.toCells := by
  intro a b h
  cases a
  cases b
  simp_all [Combination.toCells]

/-- C1: for every sweep invocation on a successfully loaded store, the
Training and Evaluation collaborators are invoked exactly for the
combinations of the Cartesian product whose raw six-value tuple is not in
the completed set, in enumeration order; for a store whose completed set
holds exactly the tuples of a set S of combinations, that pending list is
the full enumeration minus S. -/
theorem C1_resume_filter {Data Model ε : Type}
    (fp : String → String → Nat → PrepOutput Data)
    (t : TrainConfig Data → Model) (v : Model → ℚ)
    (dn ln : String) (mpl : Nat) (ad : String)
    (fs : Option DataFrame) (existing : DataFrame)
    (completed : List (List Cell))
    (hload : loadResults fs = some (existing, completed)) :
    trainedCombinations (run_hyper (ε := ε) fp (fun cfg => .ok (t cfg))
        (fun m => .ok (v m)) dn ln mpl ad fs).trace = pendingFor completed
    ∧ evalCount (run_hyper (ε := ε) fp (fun cfg => .ok (t cfg))
        (fun m => .ok (v m)) dn ln mpl ad fs).trace
        = (pendingFor completed).length
    ∧ ∀ S : List Combination, completed = S.map Combination.toCells →
        pendingFor completed
          = hyperparameter_combinations.filter fun c => !decide (c ∈ S) := by
  rw [run_hyper_total fp t v dn ln mpl ad fs existing completed hload]
  refine ⟨?_, ?_, ?_⟩
  · simp [trainedCombinations, trainCalls, List.filterMap_cons,
      trainedCombinations_totalTrace]
    have h := trainedCombinations_totalTrace t v (fp dn ln mpl).data
      (fp dn ln mpl).new_max_prefix_len (resultsPath ln ad) existing
      (pendingFor completed) []
    simpa [trainedCombinations, trainCalls] using h
  · simp [evalCount, List.countP_cons]
    have h := evalCount_totalTrace t v (fp dn ln mpl).data
      (fp dn ln mpl).new_max_prefix_len (resultsPath ln ad) existing
      (pendingFor completed) []
    simpa [evalCount] using h
  · intro S hS
    subst hS
    refine List.filter_congr fun c _ => ?_
    simp [List.mem_map_of_injective toCells_injective]

/-- Witness for C1: an empty store pre-seeded with the first combination;
the hypothesis is discharged by computation. -/
theorem C1_resume_filter_witness :
    trainedCombinations (run_hyper (ε := Unit)
        (fun _ _ n => PrepOutput.mk () n) (fun cfg => .ok (cfg.patience))
        (fun m => .ok (mkRat m 2)) "d" "lending" 6 "high"
        (some ⟨standardColumns,
          [recordRow ⟨1, false, 16, 128, mkRat 1 10000, mkRat 2 10⟩
            (mkRat 1 2)]⟩)).trace
      = pendingFor
          [Combination.toCells ⟨1, false, 16, 128, mkRat 1 10000, mkRat 2 10⟩]
    ∧ evalCount (run_hyper (ε := Unit)
        (fun _ _ n => PrepOutput.mk () n) (fun cfg => .ok (cfg.patience))
        (fun m => .ok (mkRat m 2)) "d" "lending" 6 "high"
        (some ⟨standardColumns,
          [recordRow ⟨1, false, 16, 128, mkRat 1 10000, mkRat 2 10⟩
            (mkRat 1 2)]⟩)).trace
      = (pendingFor
          [Combination.toCells
            ⟨1, false, 16, 128, mkRat 1 10000, mkRat 2 10⟩]).length
    ∧ ∀ S : List Combination,
        [Combination.toCells ⟨1, false, 16, 128, mkRat 1 10000, mkRat 2 10⟩]
          = S.map Combination.toCells →
        pendingFor
            [Combination.toCells ⟨1, false, 16, 128, mkRat 1 10000, mkRat 2 10⟩]
          = hyperparameter_combinations.filter fun c => !decide (c ∈ S) :=
  C1_resume_filter (fun _ _ n => PrepOutput.mk () n)
    (fun cfg => cfg.patience) (fun m => mkRat m 2) "d" "lending" 6 "high"
    (some ⟨standardColumns,
      [recordRow ⟨1, false, 16, 128, mkRat 1 10000, mkRat 2 10⟩ (mkRat 1 2)]⟩)
    ⟨standardColumns,
      [recordRow ⟨1, false, 16, 128, mkRat 1 10000, mkRat 2 10⟩ (mkRat 1 2)]⟩
    [Combination.toCells ⟨1, false, 16, 128, mkRat 1 10000, mkRat 2 10⟩]
    (by decide)

/-- A trivial preprocessing collaborator used to exercise the sweep at
concrete inputs. -/
def fp0 : String → String → Nat → PrepOutput Unit := fun _ _ n => ⟨(), n⟩

/-- A trivial training collaborator used to exercise the sweep. -/
def t0 : TrainConfig Unit → Unit := fun _ => ()

/-- A trivial evaluation collaborator used to exercise the sweep. -/
def v0 : Unit → ℚ := fun _ => mkRat 1 2

/-- C2: after each pending combination completes, the store file is
rewritten to exactly the records that existed at sweep start, in their
original order, followed by all records newly computed so far in
enumeration order; each later flush re-persists the earlier new records
identically, and the run ends with the flush of the full concatenation. -/
theorem C2_incremental_flush {Data Model ε : Type}
    (fp : String → String → Nat → PrepOutput Data)
    (t : TrainConfig Data → Model) (v : Model → ℚ)
    (dn ln : String) (mpl : Nat) (ad : String)
    (fs : Option DataFrame) (existing : DataFrame)
    (completed : List (List Cell))
    (hload : loadResults fs = some (existing, completed)) :
    writeEvents (run_hyper (ε := ε) fp (fun cfg => .ok (t cfg))
        (fun m => .ok (v m)) dn ln mpl ad fs).trace =
      (List.range (pendingFor completed).length).map (fun i =>
        DataFrame.mk existing.columns (existing.rows ++
          (newRowsFor t v (fp dn ln mpl).data
            (fp dn ln mpl).new_max_prefix_len
            (pendingFor completed)).take (i + 1))) ++
        [DataFrame.mk existing.columns (existing.rows ++
          newRowsFor t v (fp dn ln mpl).data
            (fp dn ln mpl).new_max_prefix_len (pendingFor completed))] := by
  rw [run_hyper_total fp t v dn ln mpl ad fs existing completed hload]
  have h := writeEvents_totalTrace t v (fp dn ln mpl).data
    (fp dn ln mpl).new_max_prefix_len (resultsPath ln ad) existing
    (pendingFor completed) []
  simp only [writeEvents, List.filterMap_cons, pdConcat, List.nil_append] at h ⊢
  exact h

/-- Witness for C2 at an absent store file. -/
theorem C2_incremental_flush_witness :
    writeEvents (run_hyper (ε := Unit) fp0 (fun cfg => .ok (t0 cfg))
        (fun m => .ok (v0 m)) "d" "lending" 6 "high" none).trace =
      (List.range (pendingFor []).length).map (fun i =>
        DataFrame.mk (DataFrame.mk standardColumns []).columns
          ((DataFrame.mk standardColumns []).rows ++
            (newRowsFor t0 v0 (fp0 "d" "lending" 6).data
              (fp0 "d" "lending" 6).new_max_prefix_len
              (pendingFor [])).take (i + 1))) ++
        [DataFrame.mk (DataFrame.mk standardColumns []).columns
          ((DataFrame.mk standardColumns []).rows ++
            newRowsFor t0 v0 (fp0 "d" "lending" 6).data
              (fp0 "d" "lending" 6).new_max_prefix_len (pendingFor []))] :=
  C2_incremental_flush fp0 t0 v0 "d" "lending" 6 "high" none
    ⟨standardColumns, []⟩ [] rfl

/-- C9: after the pending loop the controller performs one final
append-and-flush — also when the pending list is empty — and returns the
concatenation of existing and new records, which is exactly the content
of the last write. -/
theorem C9_final_flush {Data Model ε : Type}
    (fp : String → String → Nat → PrepOutput Data)
    (t : TrainConfig Data → Model) (v : Model → ℚ)
    (dn ln : String) (mpl : Nat) (ad : String)
    (fs : Option DataFrame) (existing : DataFrame)
    (completed : List (List Cell))
    (hload : loadResults fs = some (existing, completed)) :
    (run_hyper (ε := ε) fp (fun cfg => .ok (t cfg)) (fun m => .ok (v m))
        dn ln mpl ad fs).outcome =
      .ok (pdConcat existing ⟨standardColumns,
        newRowsFor t v (fp dn ln mpl).data (fp dn ln mpl).new_max_prefix_len
          (pendingFor completed)⟩)
    ∧ (run_hyper (ε := ε) fp (fun cfg => .ok (t cfg)) (fun m => .ok (v m))
        dn ln mpl ad fs).file =
      some (pdConcat existing ⟨standardColumns,
        newRowsFor t v (fp dn ln mpl).data (fp dn ln mpl).new_max_prefix_len
          (pendingFor completed)⟩)
    ∧ (writeEvents (run_hyper (ε := ε) fp (fun cfg => .ok (t cfg))
        (fun m => .ok (v m)) dn ln mpl ad fs).trace).getLast? =
      some (pdConcat existing ⟨standardColumns,
        newRowsFor t v (fp dn ln mpl).data (fp dn ln mpl).new_max_prefix_len
          (pendingFor completed)⟩)
    ∧ writeEvents (run_hyper (ε := ε) fp (fun cfg => .ok (t cfg))
        (fun m => .ok (v m)) dn ln mpl ad fs).trace ≠ []
    ∧ (pendingFor completed = [] →
        writeEvents (run_hyper (ε := ε) fp (fun cfg => .ok (t cfg))
          (fun m => .ok (v m)) dn ln mpl ad fs).trace =
          [pdConcat existing ⟨standardColumns, ([] : List (List Cell))⟩]) := by
  rw [run_hyper_total fp t v dn ln mpl ad fs existing completed hload]
  have h := writeEvents_totalTrace t v (fp dn ln mpl).data
    (fp dn ln mpl).new_max_prefix_len (resultsPath ln ad) existing
    (pendingFor completed) []
  refine ⟨rfl, rfl, ?_, ?_, ?_⟩
  · simp only [writeEvents, List.filterMap_cons] at h ⊢
    rw [h, List.getLast?_concat]
    simp
  · simp only [writeEvents, List.filterMap_cons] at h ⊢
    rw [h]
    simp
  · intro hempty
    simp only [writeEvents, List.filterMap_cons] at h ⊢
    rw [h, hempty]
    simp [newRowsFor]

/-- Witness for C9 at an absent store file. -/
theorem C9_final_flush_witness :
    (run_hyper (ε := Unit) fp0 (fun cfg => .ok (t0 cfg))
        (fun m => .ok (v0 m)) "d" "lending" 6 "high" none).outcome =
      .ok (pdConcat ⟨standardColumns, []⟩ ⟨standardColumns,
        newRowsFor t0 v0 (fp0 "d" "lending" 6).data
          (fp0 "d" "lending" 6).new_max_prefix_len (pendingFor [])⟩)
    ∧ (run_hyper (ε := Unit) fp0 (fun cfg => .ok (t0 cfg))
        (fun m => .ok (v0 m)) "d" "lending" 6 "high" none).file =
      some (pdConcat ⟨standardColumns, []⟩ ⟨standardColumns,
        newRowsFor t0 v0 (fp0 "d" "lending" 6).data
          (fp0 "d" "lending" 6).new_max_prefix_len (pendingFor [])⟩)
    ∧ (writeEvents (run_hyper (ε := Unit) fp0 (fun cfg => .ok (t0 cfg))
        (fun m => .ok (v0 m)) "d" "lending" 6 "high" none).trace).getLast? =
      some (pdConcat ⟨standardColumns, []⟩ ⟨standardColumns,
        newRowsFor t0 v0 (fp0 "d" "lending" 6).data
          (fp0 "d" "lending" 6).new_max_prefix_len (pendingFor [])⟩)
    ∧ writeEvents (run_hyper (ε := Unit) fp0 (fun cfg => .ok (t0 cfg))
        (fun m => .ok (v0 m)) "d" "lending" 6 "high" none).trace ≠ []
    ∧ (pendingFor [] = [] →
        writeEvents (run_hyper (ε := Unit) fp0 (fun cfg => .ok (t0 cfg))
          (fun m => .ok (v0 m)) "d" "lending" 6 "high" none).trace =
          [pdConcat ⟨standardColumns, []⟩
            ⟨standardColumns, ([] : List (List Cell))⟩]) :=
  C9_final_flush fp0 t0 v0 "d" "lending" 6 "high" none
    ⟨standardColumns, []⟩ [] rfl

/-- C4: applied to the six fixed axes, the enumerator yields exactly
2·2·3·3·2·2 = 144 tuples, each an element of the cross product and
conversely, with no duplicates, ordered as nested iteration with the
last axis (dropout) varying fastest (position = mixed-radix rank). -/
theorem C4_enumeration :
    hyperparameter_combinations.length = 144
    ∧ hyperparameter_combinations.Nodup
    ∧ (∀ c : Combination, c ∈ hyperparameter_combinations ↔
        c.num_layers ∈ num_layers_lst ∧ c.bidirectional ∈ bidirectional_lst ∧
        c.lstm_size ∈ LSTM_size_lst ∧ c.batch_size ∈ batch_size_lst ∧
        c.learning_rate ∈ learning_rate_lst ∧ c.dropout ∈ dropout_lst)
    ∧ hyperparameter_combinations.map axisRank = List.range 144 :=
  ⟨hyperparameter_combinations_length, hyperparameter_combinations_nodup,
    mem_hyperparameter_combinations, hyperparameter_combinations_rank⟩

/-- The loop can only propagate collaborator errors, never a ParseError. -/
theorem sweepLoop_no_parseError {Data Model ε : Type}
    (train : TrainConfig Data → Except ε Model)
    (evaluate : Model → Except ε ℚ) (data : Data) (maxLen : Nat)
    (path : String) (existing : DataFrame) (pending : List Combination)
    (acc : List (List Cell)) (file : Option DataFrame) :
    (sweepLoop train evaluate data maxLen path existing pending acc
        file).outcome ≠ .error .parseError := by
  induction pending generalizing acc file with
  | nil => simp [sweepLoop]
  | cons c rest ih =>
      simp only [sweepLoop]
      split
      · simp
      · split
        · simp
        · simpa using ih _ _

/-- C5: loading never fails when the persisted file is absent — the load
yields the empty frame and empty completed set and the run cannot end in
a ParseError; when the file exists but lacks a required column, the run
fails with a ParseError immediately, with no training, evaluation or
write performed and the file untouched. -/
theorem C5_load_errors {Data Model ε : Type}
    (fp : String → String → Nat → PrepOutput Data)
    (train : TrainConfig Data → Except ε Model)
    (evaluate : Model → Except ε ℚ)
    (dn ln : String) (mpl : Nat) (ad : String) (df : DataFrame)
    (hbad : selectColumns df requiredColumns = none) :
    loadResults none = some (⟨standardColumns, []⟩, ([] : List (List Cell)))
    ∧ (run_hyper fp train evaluate dn ln mpl ad none).outcome
        ≠ .error .parseError
    ∧ (run_hyper fp train evaluate dn ln mpl ad (some df)).outcome
        = .error .parseError
    ∧ (run_hyper fp train evaluate dn ln mpl ad (some df)).trace
        = [.prep dn ln mpl]
    ∧ (run_hyper fp train evaluate dn ln mpl ad (some df)).file = some df := by
  refine ⟨rfl, ?_, ?_, ?_, ?_⟩
  · simp only [run_hyper, loadResults]
    exact sweepLoop_no_parseError train evaluate _ _ _ _ _ _ _
  · simp [run_hyper, loadResults, hbad]
  · simp [run_hyper, loadResults, hbad]
  · simp [run_hyper, loadResults, hbad]

/-- Witness for C5 at a file with a single unrelated column. -/
theorem C5_load_errors_witness :
    loadResults none = some (⟨standardColumns, []⟩, ([] : List (List Cell)))
    ∧ (run_hyper (ε := Unit) fp0 (fun cfg => .ok (t0 cfg)) (fun m => .ok (v0 m))
        "d" "lending" 6 "high" none).outcome ≠ .error .parseError
    ∧ (run_hyper (ε := Unit) fp0 (fun cfg => .ok (t0 cfg)) (fun m => .ok (v0 m))
        "d" "lending" 6 "high" (some ⟨["foo"], []⟩)).outcome
        = .error .parseError
    ∧ (run_hyper (ε := Unit) fp0 (fun cfg => .ok (t0 cfg)) (fun m => .ok (v0 m))
        "d" "lending" 6 "high" (some ⟨["foo"], []⟩)).trace
        = [.prep "d" "lending" 6]
    ∧ (run_hyper (ε := Unit) fp0 (fun cfg => .ok (t0 cfg)) (fun m => .ok (v0 m))
        "d" "lending" 6 "high" (some ⟨["foo"], []⟩)).file
        = some ⟨["foo"], []⟩ :=
  C5_load_errors fp0 (fun cfg => .ok (t0 cfg)) (fun m => .ok (v0 m))
    "d" "lending" 6 "high" ⟨["foo"], []⟩ rfl

/-- Every training call the loop makes uses the argument record built by
`initialize_model` for some combination, with the loop's fixed data,
resolved length and fixed epoch/patience numbers. -/
theorem trainCalls_sweepLoop {Data Model ε : Type}
    (train : TrainConfig Data → Except ε Model)
    (evaluate : Model → Except ε ℚ) (data : Data) (maxLen : Nat)
    (path : String) (existing : DataFrame) (pending : List Combination)
    (acc : List (List Cell)) (file : Option DataFrame) :
    ∀ cfg ∈ trainCalls (sweepLoop train evaluate data maxLen path existing
        pending acc file).trace, ∃ c, cfg = cfgFor data maxLen c := by
  induction pending generalizing acc file with
  | nil => simp [sweepLoop, trainCalls]
  | cons c rest ih =>
      simp only [sweepLoop]
      split
      · intro cfg hcfg
        simp [trainCalls, List.filterMap_cons] at hcfg
        exact ⟨c, by simp [hcfg, cfgFor]⟩
      · split
        · intro cfg hcfg
          simp [trainCalls, List.filterMap_cons] at hcfg
          exact ⟨c, by simp [hcfg, cfgFor]⟩
        · intro cfg hcfg
          simp only [trainCalls, List.filterMap_cons] at hcfg ⊢
          simp at hcfg
          rcases hcfg with h | h
          · exact ⟨c, by simp [h, cfgFor]⟩
          · exact ih _ _ cfg (by simpa [trainCalls] using h)

/-- The loop performs no preprocessing load. -/
theorem prepCount_sweepLoop {Data Model ε : Type}
    (train : TrainConfig Data → Except ε Model)
    (evaluate : Model → Except ε ℚ) (data : Data) (maxLen : Nat)
    (path : String) (existing : DataFrame) (pending : List Combination)
    (acc : List (List Cell)) (file : Option DataFrame) :
    prepCount (sweepLoop train evaluate data maxLen path existing pending
        acc file).trace = 0 := by
  induction pending generalizing acc file with
  | nil => simp [sweepLoop, prepCount]
  | cons c rest ih =>
      simp only [sweepLoop]
      split
      · simp [prepCount]
      · split
        · simp [prepCount]
        · simp only [prepCount, List.countP_cons] at ih ⊢
          simpa using ih _ _

/-- C8: the Preprocessing collaborator is consumed exactly once per
invocation, as the first observable step, before the combination loop,
and every training call uses the prepared data and the resolved maximum
prefix length of that single load. -/
theorem C8_single_prep {Data Model ε : Type} [DecidableEq Data]
    (fp : String → String → Nat → PrepOutput Data)
    (train : TrainConfig Data → Except ε Model)
    (evaluate : Model → Except ε ℚ)
    (dn ln : String) (mpl : Nat) (ad : String) (fs : Option DataFrame) :
    prepCount (run_hyper fp train evaluate dn ln mpl ad fs).trace = 1
    ∧ (run_hyper fp train evaluate dn ln mpl ad fs).trace.head?
        = some (.prep dn ln mpl)
    ∧ (trainCalls (run_hyper fp train evaluate dn ln mpl ad fs).trace).all
        (fun cfg => decide (cfg.train_data = (fp dn ln mpl).data)
          && decide (cfg.max_length = (fp dn ln mpl).new_max_prefix_len))
        = true := by
  match hl : loadResults fs with
  | none =>
      refine ⟨?_, ?_, ?_⟩ <;> simp [run_hyper, hl, prepCount, trainCalls]
  | some (existing, completed) =>
      refine ⟨?_, ?_, ?_⟩
      · simp [run_hyper, hl, prepCount, List.countP_cons]
        have h := prepCount_sweepLoop train evaluate (fp dn ln mpl).data
          (fp dn ln mpl).new_max_prefix_len (resultsPath ln ad) existing
          (hyperparameter_combinations.filter fun comb =>
            !decide (comb.toCells ∈ completed)) [] fs
        simpa [prepCount] using h
      · simp [run_hyper, hl]
      · simp only [run_hyper, hl]
        rw [List.all_eq_true]
        intro cfg hcfg
        simp only [trainCalls, List.filterMap_cons] at hcfg
        obtain ⟨c, hc⟩ := trainCalls_sweepLoop train evaluate
          (fp dn ln mpl).data (fp dn ln mpl).new_max_prefix_len
          (resultsPath ln ad) existing _ [] fs cfg
          (by simpa [trainCalls] using hcfg)
        subst hc
        simp [cfgFor, initialize_model]

/-- C10: every training invocation the controller performs uses the
fixed configuration loss_function "BCE", max_epochs 300, patience 20,
get_history false, and the resolved maximum prefix length, whatever the
store state and collaborator outcomes. -/
theorem C10_fixed_train_config {Data Model ε : Type}
    (fp : String → String → Nat → PrepOutput Data)
    (train : TrainConfig Data → Except ε Model)
    (evaluate : Model → Except ε ℚ)
    (dn ln : String) (mpl : Nat) (ad : String) (fs : Option DataFrame) :
    (trainCalls (run_hyper fp train evaluate dn ln mpl ad fs).trace).all
      (fun cfg => cfg.loss_function == "BCE" && cfg.max_epochs == 300
        && cfg.patience == 20 && cfg.get_history == false
        && cfg.max_length == (fp dn ln mpl).new_max_prefix_len) = true := by
  match hl : loadResults fs with
  | none => simp [run_hyper, hl, trainCalls]
  | some (existing, completed) =>
      simp only [run_hyper, hl]
      rw [List.all_eq_true]
      intro cfg hcfg
      simp only [trainCalls, List.filterMap_cons] at hcfg
      obtain ⟨c, hc⟩ := trainCalls_sweepLoop train evaluate
        (fp dn ln mpl).data (fp dn ln mpl).new_max_prefix_len
        (resultsPath ln ad) existing _ [] fs cfg
        (by simpa [trainCalls] using hcfg)
      subst hc
      simp [cfgFor, initialize_model]

/-- The combined training-then-evaluation outcome for one combination:
the first error among the two collaborator calls, or the metric. -/
def stepResult {Data Model ε : Type}
    (train : TrainConfig Data → Except ε Model)
    (evaluate : Model → Except ε ℚ) (data : Data) (maxLen : Nat)
    (c : Combination) : Except ε ℚ :=
  match train (cfgFor data maxLen c) with
  | .error e => .error e
  | .ok m => evaluate m

/-- The stored row of a successfully processed combination. -/
def stepRow {Data Model ε : Type}
    (train : TrainConfig Data → Except ε Model)
    (evaluate : Model → Except ε ℚ) (data : Data) (maxLen : Nat)
    (c : Combination) : List Cell :=
  recordRow c ((stepResult train evaluate data maxLen c).toOption.getD 0)

theorem loadResults_none_inv {existing : DataFrame}
    {completed : List (List Cell)}
    (hload : loadResults none = some (existing, completed)) :
    existing = ⟨standardColumns, []⟩ ∧ completed = [] := by
  simp only [loadResults, Option.some.injEq, Prod.mk.injEq] at hload
  exact ⟨hload.1.symm, hload.2.symm⟩

theorem loadResults_some_inv {df existing : DataFrame}
    {completed : List (List Cell)}
    (hload : loadResults (some df) = some (existing, completed)) :
    existing = df ∧ selectColumns df requiredColumns = some completed := by
  simp only [loadResults, Option.map_eq_some', Prod.mk.injEq] at hload
  obtain ⟨comp, hsel, hdf, hcomp⟩ := hload
  subst hdf
  subst hcomp
  exact ⟨rfl, hsel⟩

/-- A successfully loaded store's rows are the existing frame's rows. -/
theorem storeRows_of_load {fs : Option DataFrame} {existing : DataFrame}
    {completed : List (List Cell)}
    (hload : loadResults fs = some (existing, completed)) :
    storeRows fs = existing.rows := by
  cases fs with
  | none => rw [(loadResults_none_inv hload).1]; rfl
  | some df => rw [(loadResults_some_inv hload).1]; rfl

theorem get_not_mem_take {α : Type} {l : List α} (hn : l.Nodup) (i : Nat)
    (h : i < l.length) : l.get ⟨i, h⟩ ∉ l.take i := by
  intro hmem
  have hsplit : l.take i ++ l.drop i = l := List.take_append_drop i l
  have hnd : (l.take i ++ l.drop i).Nodup := by rw [hsplit]; exact hn
  have hdisj := (List.nodup_append.mp hnd).2.2
  have hd : l.get ⟨i, h⟩ ∈ l.drop i := by
    rw [← List.getElem_cons_drop l i h]
    exact List.mem_cons_self _ _
  exact hdisj hmem hd

/-- With an empty completed set nothing is filtered out. -/
theorem pendingFor_nil : pendingFor [] = hyperparameter_combinations := by
  simp [pendingFor]

/-- The pending list inherits the enumeration's freedom from duplicates. -/
theorem pendingFor_nodup (completed : List (List Cell)) :
    (pendingFor completed).Nodup :=
  hyperparameter_combinations_nodup.filter _

/-- Behaviour of the loop when the collaborators succeed on the first i
pending combinations and fail on the (i+1)-st: error propagation, the
file as of the last completed flush, and the halt of the loop. -/
theorem sweepLoop_fail {Data Model ε : Type}
    (train : TrainConfig Data → Except ε Model)
    (evaluate : Model → Except ε ℚ) (data : Data) (maxLen : Nat)
    (path : String) (existing : DataFrame) (pending : List Combination)
    (i : Nat) (hi : i < pending.length)
    (hok : ∀ c ∈ pending.take i, ∃ q,
      stepResult train evaluate data maxLen c = .ok q)
    (hfail : ∃ e,
      stepResult train evaluate data maxLen (pending.get ⟨i, hi⟩) = .error e)
    (acc : List (List Cell)) (file : Option DataFrame) :
    (∃ e, (sweepLoop train evaluate data maxLen path existing pending acc
        file).outcome = .error (.collab e))
    ∧ (sweepLoop train evaluate data maxLen path existing pending acc
        file).file = (if i = 0 then file
          else some (pdConcat existing ⟨standardColumns,
            acc ++ (pending.take i).map
              (stepRow train evaluate data maxLen)⟩))
    ∧ trainedCombinations (sweepLoop train evaluate data maxLen path
        existing pending acc file).trace = pending.take (i + 1) := by
  induction pending generalizing i acc file with
  | nil => exact absurd hi (by simp)
  | cons c rest ih =>
      cases i with
      | zero =>
          obtain ⟨e, he⟩ := hfail
          simp only [List.get] at he
          simp only [stepResult, cfgFor] at he
          simp only [sweepLoop]
          cases htr : train (initialize_model data c.num_layers
              c.bidirectional c.lstm_size c.batch_size c.learning_rate
              c.dropout maxLen 300 20) with
          | error e2 =>
              refine ⟨⟨e2, rfl⟩, by simp, ?_⟩
              simp [trainedCombinations, trainCalls, List.filterMap_cons]
              rfl
          | ok m =>
              rw [htr] at he
              simp only at he
              simp only [he]
              refine ⟨⟨e, rfl⟩, by simp, ?_⟩
              simp [trainedCombinations, trainCalls, List.filterMap_cons]
              rfl
      | succ j =>
          obtain ⟨q, hq⟩ := hok c (by simp)
          have hq2 := hq
          simp only [stepResult, cfgFor] at hq2
          simp only [sweepLoop]
          cases htr : train (initialize_model data c.num_layers
              c.bidirectional c.lstm_size c.batch_size c.learning_rate
              c.dropout maxLen 300 20) with
          | error e2 => rw [htr] at hq2; exact absurd hq2 (by simp)
          | ok m =>
              rw [htr] at hq2
              simp only at hq2
              simp only [hq2]
              have hj : j < rest.length := by simpa using hi
              have hok2 : ∀ c2 ∈ rest.take j, ∃ q2,
                  stepResult train evaluate data maxLen c2 = .ok q2 := by
                intro c2 hc2
                exact hok c2 (by simp [List.take_succ_cons]; right; exact hc2)
              have hfail2 : ∃ e, stepResult train evaluate data maxLen
                  (rest.get ⟨j, hj⟩) = .error e := by
                obtain ⟨e, he⟩ := hfail
                exact ⟨e, by simpa [List.get] using he⟩
              obtain ⟨hout, hfile, htrace⟩ := ih j hj hok2 hfail2
                (acc ++ [recordRow c q]) (some (pdConcat existing
                  ⟨standardColumns, acc ++ [recordRow c q]⟩))
              have hrow : stepRow train evaluate data maxLen c
                  = recordRow c q := by
                simp [stepRow, hq, Except.toOption]
              refine ⟨by simpa using hout, ?_, ?_⟩
              · rw [hfile]
                cases hj0 : j with
                | zero => simp [List.take_succ_cons, hrow]
                | succ k =>
                    simp [List.take_succ_cons, hrow, List.append_assoc]
              · simp only [trainedCombinations, trainCalls] at htrace
                simp [trainedCombinations, trainCalls, List.filterMap_cons,
                  List.take_succ_cons, htrace]
                rfl

/-- C3: if training or evaluation fails on the (i+1)-st pending
combination, the error propagates uncaught (the sweep halts right there:
no later combination is trained), and the store file then holds exactly
the pre-existing records followed by the records of the pending
combinations completed strictly before it; no record of the failing
combination is persisted. -/
theorem C3_error_halts {Data Model ε : Type}
    (fp : String → String → Nat → PrepOutput Data)
    (train : TrainConfig Data → Except ε Model)
    (evaluate : Model → Except ε ℚ)
    (dn ln : String) (mpl : Nat) (ad : String)
    (fs : Option DataFrame) (existing : DataFrame)
    (completed : List (List Cell))
    (hload : loadResults fs = some (existing, completed))
    (i : Nat) (hi : i < (pendingFor completed).length)
    (hok : ∀ c ∈ (pendingFor completed).take i, ∃ q,
      stepResult train evaluate (fp dn ln mpl).data
        (fp dn ln mpl).new_max_prefix_len c = .ok q)
    (hfail : ∃ e, stepResult train evaluate (fp dn ln mpl).data
      (fp dn ln mpl).new_max_prefix_len
      ((pendingFor completed).get ⟨i, hi⟩) = .error e) :
    (∃ e, (run_hyper fp train evaluate dn ln mpl ad fs).outcome
        = .error (.collab e))
    ∧ storeRows (run_hyper fp train evaluate dn ln mpl ad fs).file
        = existing.rows ++ ((pendingFor completed).take i).map
            (stepRow train evaluate (fp dn ln mpl).data
              (fp dn ln mpl).new_max_prefix_len)
    ∧ trainedCombinations
        (run_hyper fp train evaluate dn ln mpl ad fs).trace
        = (pendingFor completed).take (i + 1)
    ∧ Combination.toCells ((pendingFor completed).get ⟨i, hi⟩)
        ∉ ((pendingFor completed).take i).map Combination.toCells := by
  obtain ⟨hout, hfile, htrace⟩ := sweepLoop_fail train evaluate
    (fp dn ln mpl).data (fp dn ln mpl).new_max_prefix_len
    (resultsPath ln ad) existing (pendingFor completed) i hi hok hfail
    [] fs
  have hrun : run_hyper fp train evaluate dn ln mpl ad fs =
      { outcome := (sweepLoop train evaluate (fp dn ln mpl).data
          (fp dn ln mpl).new_max_prefix_len (resultsPath ln ad) existing
          (pendingFor completed) [] fs).outcome
        file := (sweepLoop train evaluate (fp dn ln mpl).data
          (fp dn ln mpl).new_max_prefix_len (resultsPath ln ad) existing
          (pendingFor completed) [] fs).file
        trace := .prep dn ln mpl :: (sweepLoop train evaluate
          (fp dn ln mpl).data (fp dn ln mpl).new_max_prefix_len
          (resultsPath ln ad) existing (pendingFor completed) [] fs).trace } := by
    simp [run_hyper, hload, pendingFor]
  rw [hrun]
  refine ⟨hout, ?_, ?_, ?_⟩
  · rw [hfile]
    cases hi0 : i with
    | zero => simpa using storeRows_of_load hload
    | succ k =>
        simp [storeRows, pdConcat]
  · simp [trainedCombinations, trainCalls, List.filterMap_cons]
    simp only [trainedCombinations] at htrace
    exact htrace
  · intro hmem
    obtain ⟨x, hx, hxeq⟩ := List.mem_map.mp hmem
    have hx2 : x = (pendingFor completed).get ⟨i, hi⟩ :=
      toCells_injective hxeq
    subst hx2
    exact get_not_mem_take (pendingFor_nodup completed) i hi hx

/-- Witness for C3: the training collaborator fails on the very first
pending combination of an absent store. -/
theorem C3_error_halts_witness :
    (∃ e, (run_hyper fp0 (fun _ => .error ()) (fun m => .ok (v0 m))
        "d" "lending" 6 "high" none).outcome = .error (.collab e))
    ∧ storeRows (run_hyper fp0 (fun _ => .error ()) (fun m => .ok (v0 m))
        "d" "lending" 6 "high" none).file
        = (⟨standardColumns, []⟩ : DataFrame).rows ++
          ((pendingFor []).take 0).map
            (stepRow (fun _ => .error ()) (fun m => .ok (v0 m))
              (fp0 "d" "lending" 6).data
              (fp0 "d" "lending" 6).new_max_prefix_len)
    ∧ trainedCombinations (run_hyper fp0 (fun _ => .error ())
        (fun m => .ok (v0 m)) "d" "lending" 6 "high" none).trace
        = (pendingFor []).take (0 + 1)
    ∧ Combination.toCells ((pendingFor []).get
          ⟨0, by rw [pendingFor_nil, hyperparameter_combinations_length]; decide⟩)
        ∉ ((pendingFor []).take 0).map Combination.toCells :=
  C3_error_halts fp0 (fun _ => .error ()) (fun m => .ok (v0 m))
    "d" "lending" 6 "high" none ⟨standardColumns, []⟩ [] rfl 0
    (by rw [pendingFor_nil, hyperparameter_combinations_length]; decide)
    (by simp) ⟨(), rfl⟩

/-- Positional extraction of the six required columns from a row of a
standard-column frame. -/
def firstSix (row : List Cell) : List Cell :=
  [row.getD 0 default, row.getD 1 default, row.getD 2 default,
   row.getD 3 default, row.getD 4 default, row.getD 5 default]

/-- On a frame with the standard columns, selecting the required columns
reads positions 0–5 of every row. -/
theorem selectColumns_standard (rows : List (List Cell)) :
    selectColumns ⟨standardColumns, rows⟩ requiredColumns
      = some (rows.map firstSix) := rfl

/-- A stored result row reads back as exactly the raw six-value tuple of
its combination. -/
theorem firstSix_recordRow (c : Combination) (q : ℚ) :
    firstSix (recordRow c q) = c.toCells := rfl

/-- The completed set of a successfully loaded standard-column store is
the positional extraction of its rows. -/
theorem loadResults_completed {fs : Option DataFrame} {existing : DataFrame}
    {completed : List (List Cell)}
    (hload : loadResults fs = some (existing, completed))
    (hstd : existing.columns = standardColumns) :
    completed = existing.rows.map firstSix := by
  cases fs with
  | none =>
      obtain ⟨he, hc⟩ := loadResults_none_inv hload
      subst he
      subst hc
      rfl
  | some df =>
      obtain ⟨he, hsel⟩ := loadResults_some_inv hload
      subst he
      obtain ⟨cols, rows⟩ := existing
      simp only at hstd
      subst hstd
      rw [selectColumns_standard] at hsel
      simpa using hsel.symm

/-- The new rows of a run read back as the raw tuples of its pending
combinations. -/
theorem firstSix_newRowsFor {Data Model : Type}
    (t : TrainConfig Data → Model) (v : Model → ℚ) (data : Data)
    (maxLen : Nat) (pending : List Combination) :
    (newRowsFor t v data maxLen pending).map firstSix
      = pending.map Combination.toCells := by
  simp [newRowsFor, List.map_map, Function.comp_def, rowFor,
    firstSix_recordRow]

/-- Every enumerated combination's tuple is present after the run: it was
either already completed or just computed. -/
theorem full_coverage (completed : List (List Cell)) :
    ∀ c ∈ hyperparameter_combinations, c.toCells ∈
      completed ++ (pendingFor completed).map Combination.toCells := by
  intro c hc
  rw [List.mem_append]
  by_cases hmem : c.toCells ∈ completed
  · exact Or.inl hmem
  · refine Or.inr (List.mem_map.mpr ⟨c, ?_, rfl⟩)
    simp [pendingFor, List.mem_filter, hc, hmem]

/-- After a run on a loaded standard-column store, the rewritten store is
the standard-column frame of old rows followed by new rows, and its
completed set is the old completed set followed by the pending tuples. -/
theorem store_after_total_run {existing : DataFrame}
    (newRows : List (List Cell))
    (hstd : existing.columns = standardColumns) :
    pdConcat existing ⟨standardColumns, newRows⟩
      = ⟨standardColumns, existing.rows ++ newRows⟩ := by
  simp [pdConcat, hstd]

/-- C7: after an uninterrupted sweep on a duplicate-free standard store,
the store's combination tuples cover the whole Cartesian product, contain
no duplicates, and equal exactly the product when the store started
absent. -/
theorem C7_store_invariant {Data Model ε : Type}
    (fp : String → String → Nat → PrepOutput Data)
    (t : TrainConfig Data → Model) (v : Model → ℚ)
    (dn ln : String) (mpl : Nat) (ad : String)
    (fs : Option DataFrame) (existing : DataFrame)
    (completed : List (List Cell))
    (hload : loadResults fs = some (existing, completed))
    (hstd : existing.columns = standardColumns)
    (hnodup : completed.Nodup) :
    (run_hyper (ε := ε) fp (fun cfg => .ok (t cfg)) (fun m => .ok (v m))
        dn ln mpl ad fs).file
      = some ⟨standardColumns, existing.rows ++
          newRowsFor t v (fp dn ln mpl).data
            (fp dn ln mpl).new_max_prefix_len (pendingFor completed)⟩
    ∧ selectColumns ⟨standardColumns, existing.rows ++
          newRowsFor t v (fp dn ln mpl).data
            (fp dn ln mpl).new_max_prefix_len (pendingFor completed)⟩
        requiredColumns
      = some (completed ++ (pendingFor completed).map Combination.toCells)
    ∧ (∀ c ∈ hyperparameter_combinations, c.toCells ∈
        completed ++ (pendingFor completed).map Combination.toCells)
    ∧ (completed ++ (pendingFor completed).map Combination.toCells).Nodup
    ∧ (fs = none →
        completed ++ (pendingFor completed).map Combination.toCells
          = hyperparameter_combinations.map Combination.toCells) := by
  have h1 := run_hyper_total (ε := ε) fp t v dn ln mpl ad fs existing completed hload
  have hcomp := loadResults_completed hload hstd
  refine ⟨?_, ?_, full_coverage completed, ?_, ?_⟩
  · rw [h1]
    simp only [store_after_total_run _ hstd]
  · rw [selectColumns_standard, List.map_append, firstSix_newRowsFor,
      ← hcomp]
  · refine List.Nodup.append hnodup
      ((pendingFor_nodup completed).map toCells_injective) ?_
    intro a ha hb
    obtain ⟨c, hc, hceq⟩ := List.mem_map.mp hb
    have := (List.mem_filter.mp hc).2
    simp only [Bool.not_eq_true', decide_eq_false_iff_not] at this
    exact this (hceq ▸ ha)
  · intro hnone
    subst hnone
    obtain ⟨he, hc⟩ := loadResults_none_inv hload
    subst hc
    rw [pendingFor_nil]
    rfl

/-- Witness for C7 at an absent store file. -/
theorem C7_store_invariant_witness :
    (run_hyper (ε := Unit) fp0 (fun cfg => .ok (t0 cfg))
        (fun m => .ok (v0 m)) "d" "lending" 6 "high" none).file
      = some ⟨standardColumns,
          (⟨standardColumns, []⟩ : DataFrame).rows ++
          newRowsFor t0 v0 (fp0 "d" "lending" 6).data
            (fp0 "d" "lending" 6).new_max_prefix_len (pendingFor [])⟩
    ∧ selectColumns ⟨standardColumns,
          (⟨standardColumns, []⟩ : DataFrame).rows ++
          newRowsFor t0 v0 (fp0 "d" "lending" 6).data
            (fp0 "d" "lending" 6).new_max_prefix_len (pendingFor [])⟩
        requiredColumns
      = some ([] ++ (pendingFor []).map Combination.toCells)
    ∧ (∀ c ∈ hyperparameter_combinations, c.toCells ∈
        [] ++ (pendingFor []).map Combination.toCells)
    ∧ ([] ++ (pendingFor []).map Combination.toCells).Nodup
    ∧ ((none : Option DataFrame) = none →
        [] ++ (pendingFor []).map Combination.toCells
          = hyperparameter_combinations.map Combination.toCells) :=
  C7_store_invariant fp0 t0 v0 "d" "lending" 6 "high" none
    ⟨standardColumns, []⟩ [] rfl rfl List.nodup_nil

/-- C6: a second sweep run with unchanged configuration on the store the
first run produced performs zero training and zero evaluation calls and
leaves the store file unchanged. -/
theorem C6_rerun_idempotent {Data Model ε : Type}
    (fp : String → String → Nat → PrepOutput Data)
    (t : TrainConfig Data → Model) (v : Model → ℚ)
    (dn ln : String) (mpl : Nat) (ad : String)
    (fs : Option DataFrame) (existing : DataFrame)
    (completed : List (List Cell))
    (hload : loadResults fs = some (existing, completed))
    (hstd : existing.columns = standardColumns) :
    trainedCombinations (run_hyper (ε := ε) fp (fun cfg => .ok (t cfg))
        (fun m => .ok (v m)) dn ln mpl ad
        (run_hyper (ε := ε) fp (fun cfg => .ok (t cfg))
          (fun m => .ok (v m)) dn ln mpl ad fs).file).trace = []
    ∧ evalCount (run_hyper (ε := ε) fp (fun cfg => .ok (t cfg))
        (fun m => .ok (v m)) dn ln mpl ad
        (run_hyper (ε := ε) fp (fun cfg => .ok (t cfg))
          (fun m => .ok (v m)) dn ln mpl ad fs).file).trace = 0
    ∧ (run_hyper (ε := ε) fp (fun cfg => .ok (t cfg))
        (fun m => .ok (v m)) dn ln mpl ad
        (run_hyper (ε := ε) fp (fun cfg => .ok (t cfg))
          (fun m => .ok (v m)) dn ln mpl ad fs).file).file
      = (run_hyper (ε := ε) fp (fun cfg => .ok (t cfg))
          (fun m => .ok (v m)) dn ln mpl ad fs).file := by
  have h1 := run_hyper_total (ε := ε) fp t v dn ln mpl ad fs existing completed hload
  have hcomp := loadResults_completed hload hstd
  have hshape := store_after_total_run (newRowsFor t v (fp dn ln mpl).data
    (fp dn ln mpl).new_max_prefix_len (pendingFor completed)) hstd
  have hload2 : loadResults (some (pdConcat existing ⟨standardColumns,
      newRowsFor t v (fp dn ln mpl).data (fp dn ln mpl).new_max_prefix_len
        (pendingFor completed)⟩)) = some (pdConcat existing
      ⟨standardColumns, newRowsFor t v (fp dn ln mpl).data
        (fp dn ln mpl).new_max_prefix_len (pendingFor completed)⟩,
      completed ++ (pendingFor completed).map Combination.toCells) := by
    rw [hshape]
    simp only [loadResults, selectColumns_standard, Option.map_some']
    rw [List.map_append, firstSix_newRowsFor, ← hcomp]
  have hpend2 : pendingFor (completed ++
      (pendingFor completed).map Combination.toCells) = [] := by
    apply List.filter_eq_nil_iff.mpr
    intro c hc
    simp [full_coverage completed c hc]
  have h2 := run_hyper_total (ε := ε) fp t v dn ln mpl ad
    (some (pdConcat existing ⟨standardColumns,
      newRowsFor t v (fp dn ln mpl).data (fp dn ln mpl).new_max_prefix_len
        (pendingFor completed)⟩))
    (pdConcat existing ⟨standardColumns, newRowsFor t v (fp dn ln mpl).data
      (fp dn ln mpl).new_max_prefix_len (pendingFor completed)⟩)
    (completed ++ (pendingFor completed).map Combination.toCells) hload2
  rw [h1]
  simp only [RunResult.file] at h2 ⊢
  rw [h2, hpend2]
  refine ⟨?_, ?_, ?_⟩
  · simp [totalTrace, trainedCombinations, trainCalls]
  · simp [totalTrace, evalCount]
  · simp [newRowsFor, pdConcat]

/-- Witness for C6 at an absent store file. -/
theorem C6_rerun_idempotent_witness :
    trainedCombinations (run_hyper (ε := Unit) fp0 (fun cfg => .ok (t0 cfg))
        (fun m => .ok (v0 m)) "d" "lending" 6 "high"
        (run_hyper (ε := Unit) fp0 (fun cfg => .ok (t0 cfg))
          (fun m => .ok (v0 m)) "d" "lending" 6 "high" none).file).trace = []
    ∧ evalCount (run_hyper (ε := Unit) fp0 (fun cfg => .ok (t0 cfg))
        (fun m => .ok (v0 m)) "d" "lending" 6 "high"
        (run_hyper (ε := Unit) fp0 (fun cfg => .ok (t0 cfg))
          (fun m => .ok (v0 m)) "d" "lending" 6 "high" none).file).trace = 0
    ∧ (run_hyper (ε := Unit) fp0 (fun cfg => .ok (t0 cfg))
        (fun m => .ok (v0 m)) "d" "lending" 6 "high"
        (run_hyper (ε := Unit) fp0 (fun cfg => .ok (t0 cfg))
          (fun m => .ok (v0 m)) "d" "lending" 6 "high" none).file).file
      = (run_hyper (ε := Unit) fp0 (fun cfg => .ok (t0 cfg))
          (fun m => .ok (v0 m)) "d" "lending" 6 "high" none).file :=
  C6_rerun_idempotent fp0 t0 v0 "d" "lending" 6 "high" none
    ⟨standardColumns, []⟩ [] rfl rfl

end HyperSearch
